import Mathlib

/-!
Verification of the SQLite access layer of tauri-plugin-sqlite.

This file gives a shallow embedding of the pure decision logic of the
repository: parameter binding (src/wrapper.rs and
crates/sqlx-sqlite-toolkit/src/wrapper.rs, function bind_value), attached
database acquisition (crates/sqlx-sqlite-conn-mgr/src/attached.rs), the
change observation broker and its hooks
(crates/sqlx-sqlite-observer/src/broker.rs and hooks.rs), the change
stream (crates/sqlx-sqlite-observer/src/stream.rs), and the atomic batch
transaction helpers (src/builders.rs and
crates/sqlx-sqlite-toolkit/src/wrapper.rs).

Effectful Rust code is modelled by explicit state passing: connection and
lock acquisition is recorded as an ordered trace of paths, executed SQL
statements are recorded as ordered traces of statement strings, and the
outcomes of the SQL statements a function issues are supplied as explicit
Except-valued inputs.
-/

/-- Symbolic model of an f64 value.  Floating point arithmetic never
decides any property proved here, so a float is kept as an opaque tag:
ofRaw stands for a float produced by the JSON parser or by SQLite, and
ofNatCast n stands for the possibly lossy cast of the unsigned integer n
to f64 performed by bind_value. -/
inductive F64 where
| ofRaw (bits : Int)
| ofNatCast (n : Nat)
| ofIntCast (v : Int)
deriving DecidableEq

/-- Largest value of the Rust type i64, as a natural number. -/
def i64Max : Nat := 2 ^ 63 - 1

/-- Smallest value of the Rust type i64. -/
def i64Min : Int := -(2 ^ 63)

/-- Model of serde_json Number: the parser stores an i64, a u64 or an f64.
The ofI64 constructor carries only values in i64 range in any state the
Rust program can build; theorems state that range where it matters. -/
inductive JNumber where
| ofI64 (v : Int)
| ofU64 (v : Nat)
| ofF64 (v : F64)
deriving DecidableEq

/-- The serde_json accessor Number::as_i64. -/
def JNumber.as_i64 : JNumber → Option Int
| JNumber.ofI64 v => some v
| JNumber.ofU64 v => if v ≤ i64Max then some (Int.ofNat v) else none
| JNumber.ofF64 _ => none

/-- The serde_json accessor Number::as_u64. -/
def JNumber.as_u64 : JNumber → Option Nat
| JNumber.ofI64 v => if 0 ≤ v then some v.toNat else none
| JNumber.ofU64 v => some v
| JNumber.ofF64 _ => none

/-- The serde_json accessor Number::as_f64 (casts are kept symbolic). -/
def JNumber.as_f64 : JNumber → Option F64
| JNumber.ofI64 v => some (F64.ofIntCast v)
| JNumber.ofU64 v => some (F64.ofNatCast v)
| JNumber.ofF64 v => some v

/-- Model of serde_json Value. -/
inductive JValue where
| null
| bool (b : Bool)
| num (n : JNumber)
| str (s : String)
| arr (xs : List JValue)
| obj (fields : List (String × JValue))

/-- The serde_json accessor Value::is_null. -/
def JValue.is_null : JValue → Bool
| JValue.null => true
| _ => false

/-- The serde_json accessor Value::is_string. -/
def JValue.is_string : JValue → Bool
| JValue.str _ => true
| _ => false

/-- The serde_json accessor Value::as_str. -/
def JValue.as_str : JValue → Option String
| JValue.str s => some s
| _ => none

/-- The serde_json accessor Value::as_number. -/
def JValue.as_number : JValue → Option JNumber
| JValue.num n => some n
| _ => none

/-- A single bound SQL parameter, as produced by one call of bind_value on
a sqlx query.  The jsonValue constructor is the fallback branch
query.bind(value) that hands the raw serde_json value to sqlx, which
encodes it as its JSON text serialization. -/
inductive BoundValue where
| null
| text (s : String)
| integer (v : Int)
| real (v : F64)
| jsonValue (v : JValue)

/-- Model of bind_value from src/wrapper.rs lines 488 to 515; the copy in
crates/sqlx-sqlite-toolkit/src/wrapper.rs lines 561 to 588 is textually
identical. -/
def bind_value (value : JValue) : BoundValue :=
  if value.is_null then
    BoundValue.null
  else if value.is_string then
    BoundValue.text (value.as_str.getD "")
  else
    match value.as_number with
    | some number =>
      match number.as_i64 with
      | some int_val => BoundValue.integer int_val
      | none =>
        match number.as_u64 with
        | some uint_val =>
          if uint_val ≤ i64Max then BoundValue.integer (Int.ofNat uint_val)
          else BoundValue.real (F64.ofNatCast uint_val)
        | none => BoundValue.real (number.as_f64.getD (F64.ofRaw 0))
    | none => BoundValue.jsonValue value

/-- Mode for attaching a database, from
crates/sqlx-sqlite-conn-mgr/src/attached.rs. -/
inductive AttachedMode where
| ReadOnly
| ReadWrite
deriving DecidableEq

/-- Specification for attaching a database to a connection.  A database is
identified by its path string (SqliteDatabase.path_str in the source), the
only attribute the acquisition logic inspects. -/
structure AttachedSpec where
  database : String
  schema_name : String
  mode : AttachedMode
deriving DecidableEq

/-- Boolean test used where the source compares spec.mode with ReadWrite. -/
def isReadWrite (sp : AttachedSpec) : Bool :=
  match sp.mode with
  | AttachedMode.ReadWrite => true
  | AttachedMode.ReadOnly => false

/-- Boolean complement of isReadWrite, used to describe the loop prefix in
the reader path. -/
def isReadOnly (sp : AttachedSpec) : Bool :=
  match sp.mode with
  | AttachedMode.ReadOnly => true
  | AttachedMode.ReadWrite => false

/-- Lexicographic comparison of character lists by code point.  On the
UTF-8 strings of the source this coincides with the byte-wise ordering
that the Rust String cmp implementation uses, because UTF-8 byte order
agrees with code point order. -/
def listCharLe : List Char → List Char → Bool
| [], _ => true
| _ :: _, [] => false
| a :: as, b :: bs =>
  if a < b then true
  else if b < a then false
  else listCharLe as bs

/-- Path ordering used for lock acquisition: ascending lexicographic byte
order of the path strings. -/
def pathLe (a b : String) : Prop := listCharLe a.data b.data = true

instance : DecidableRel pathLe :=
  fun a b => inferInstanceAs (Decidable (listCharLe a.data b.data = true))

/-- Spec ordering used by the reader path: specs sorted by database path. -/
def specPathLe (a b : AttachedSpec) : Prop := pathLe a.database b.database

instance : DecidableRel specPathLe :=
  fun a b => inferInstanceAs (Decidable (pathLe a.database b.database))

/-- The error variants of crates/sqlx-sqlite-conn-mgr/src/error.rs that the
attached acquisition logic can produce. -/
inductive ConnError where
| InvalidSchemaName (name : String)
| DuplicateAttachedDatabase (path : String)
| CannotAttachReadWriteToReader
deriving DecidableEq

/-- Validation of a schema name, from attached.rs lines 186 to 190: not
empty, only ASCII alphanumeric characters or underscore, and the first
character is not a digit. -/
def is_valid_schema_name (name : String) : Bool :=
  match name.data with
  | [] => false
  | c :: _ =>
    (name.data.all fun ch => ch.isAlphanum || ch = '_') && !c.isDigit

/-- The ASCII single quote character. -/
def quoteChar : Char := Char.ofNat 39

/-- Path escaping used before splicing a path into an ATTACH statement:
every single quote is doubled (path.replace in the source). -/
def escapeSingleQuotes (s : String) : String :=
  String.mk (s.data.foldr
    (fun c acc => if c = quoteChar then quoteChar :: quoteChar :: acc else c :: acc) [])

/-- The ATTACH DATABASE statement built for one spec. -/
def attach_sql (sp : AttachedSpec) : String :=
  "ATTACH DATABASE " ++ String.singleton quoteChar ++ escapeSingleQuotes sp.database
    ++ String.singleton quoteChar ++ " AS " ++ sp.schema_name

deriving instance DecidableEq for Except

/-- Duplicate detection loop: the source inserts each path into a HashSet
in iteration order and fails on the first path already present.  The seen
argument holds the paths inserted so far. -/
def firstDupAux (seen : List String) : List String → Option String
| [] => none
| p :: rest => if p ∈ seen then some p else firstDupAux (p :: seen) rest

/-- Observable outcome of acquire_reader_with_attached: the ATTACH
statements executed on the read connection in order, the recorded schema
names, and the result. -/
structure ReaderOutcome where
  attached : List String
  schema_names : List String
  result : Except ConnError Unit
deriving DecidableEq

/-- The per-spec loop of acquire_reader_with_attached (attached.rs lines
240 to 259): validate the schema name, reject ReadWrite mode, otherwise
execute the ATTACH statement and record the schema name. -/
def readerLoop : List AttachedSpec → List String → List String → ReaderOutcome
| [], att, sch => ⟨att, sch, Except.ok ()⟩
| sp :: rest, att, sch =>
  if !is_valid_schema_name sp.schema_name then
    ⟨att, sch, Except.error (ConnError.InvalidSchemaName sp.schema_name)⟩
  else if isReadWrite sp then
    ⟨att, sch, Except.error ConnError.CannotAttachReadWriteToReader⟩
  else
    readerLoop rest (att ++ [attach_sql sp]) (sch ++ [sp.schema_name])

/-- Model of acquire_reader_with_attached (attached.rs lines 213 to 262):
sort the specs by database path, reject duplicate paths, then run the
per-spec loop. -/
def acquire_reader_with_attached (specs : List AttachedSpec) : ReaderOutcome :=
  let sorted := List.insertionSort specPathLe specs
  match firstDupAux [] (sorted.map fun sp => sp.database) with
  | some p => ⟨[], [], Except.error (ConnError.DuplicateAttachedDatabase p)⟩
  | none => readerLoop sorted [] []

/-- Value part of a successful writer acquisition: the path of the main
writer and the paths of the additionally held writers. -/
structure WriterAcqRes where
  writer : String
  held_writers : List String
deriving DecidableEq

/-- Observable outcome of acquire_writer_with_attached: the ordered trace
of writer locks acquired, the ATTACH statements executed, the recorded
schema names, and the result.  All error paths of the source return before
any lock is taken, so locks is empty on error. -/
structure WriterOutcome where
  locks : List String
  attached : List String
  schema_names : List String
  result : Except ConnError WriterAcqRes
deriving DecidableEq

/-- The set of databases needing a write lock: the main database plus
every spec with ReadWrite mode, in source iteration order (attached.rs
lines 308 to 314). -/
def writerLockSet (main_path : String) (specs : List AttachedSpec) : List String :=
  main_path :: (specs.filter isReadWrite).map fun sp => sp.database

/-- Model of acquire_writer_with_attached (attached.rs lines 288 to 359):
validate all schema names, collect the databases needing write locks,
reject duplicate paths, sort by path, acquire every writer in sorted
order, extract the main writer by its index in the sorted list, and issue
the ATTACH statements in original spec order. -/
def acquire_writer_with_attached (main_path : String) (specs : List AttachedSpec) :
    WriterOutcome :=
  match specs.find? (fun sp => !is_valid_schema_name sp.schema_name) with
  | some sp => ⟨[], [], [], Except.error (ConnError.InvalidSchemaName sp.schema_name)⟩
  | none =>
    let db_entries := writerLockSet main_path specs
    match firstDupAux [] db_entries with
    | some p => ⟨[], [], [], Except.error (ConnError.DuplicateAttachedDatabase p)⟩
    | none =>
      let sorted := List.insertionSort pathLe db_entries
      let main_writer_idx := sorted.indexOf main_path
      ⟨sorted, specs.map attach_sql, specs.map fun sp => sp.schema_name,
        Except.ok ⟨sorted.getD main_writer_idx "", sorted.eraseIdx main_writer_idx⟩⟩

/-- Change operation, from crates/sqlx-sqlite-observer/src/change.rs. -/
inductive ChangeOperation where
| Insert
| Update
| Delete
deriving DecidableEq

/-- A SQLite value extracted from preupdate hooks, from
crates/sqlx-sqlite-observer/src/hooks.rs.  Blob bytes are lists of
naturals. -/
inductive SqliteValue where
| null
| integer (v : Int)
| real (v : F64)
| text (s : String)
| blob (bytes : List Nat)
deriving DecidableEq

/-- Typed column value published to subscribers, from change.rs. -/
inductive ColumnValue where
| null
| integer (v : Int)
| real (v : F64)
| text (s : String)
| blob (bytes : List Nat)
deriving DecidableEq

/-- The From conversion of change.rs lines 26 to 36. -/
def SqliteValue.toColumnValue : SqliteValue → ColumnValue
| SqliteValue.null => ColumnValue.null
| SqliteValue.integer v => ColumnValue.integer v
| SqliteValue.real v => ColumnValue.real v
| SqliteValue.text s => ColumnValue.text s
| SqliteValue.blob b => ColumnValue.blob b

/-- Schema snapshot of an observed table: the ordered primary key column
indices and the WITHOUT ROWID flag. -/
structure TableInfo where
  pk_columns : List Nat
  without_rowid : Bool
deriving DecidableEq

/-- Raw change event captured by the preupdate hook before the commit
decision, from hooks.rs. -/
structure PreUpdateEvent where
  table : String
  operation : ChangeOperation
  old_rowid : Int
  new_rowid : Int
  old_values : Option (List SqliteValue)
  new_values : Option (List SqliteValue)
deriving DecidableEq

/-- Published change notification, as constructed by event_to_change in
broker.rs.  The wall-clock timestamp field is not modelled. -/
structure TableChange where
  table : String
  operation : Option ChangeOperation
  rowid : Option Int
  primary_key : List ColumnValue
  old_values : Option (List ColumnValue)
  new_values : Option (List ColumnValue)
deriving DecidableEq

/-- The observer error produced by extract_primary_key on schema drift. -/
inductive ObsError where
| SchemaMismatch (table : String) (expected actual : Nat)
deriving DecidableEq

/-- Configuration part of the broker state: the observed table set, the
table info cache and the capture_values flag.  The event buffer is passed
separately because the hook callbacks thread it through. -/
structure ObservationBroker where
  observed_tables : List String
  table_info : List (String × TableInfo)
  capture_values : Bool
deriving DecidableEq

/-- Lookup in the table info cache (broker.rs get_table_info). -/
def ObservationBroker.get_table_info (b : ObservationBroker) (table : String) :
    Option TableInfo :=
  (b.table_info.find? fun e => e.1 == table).map fun e => e.2

/-- Membership test in the observed table set (broker.rs
is_table_observed). -/
def ObservationBroker.is_table_observed (b : ObservationBroker) (table : String) : Bool :=
  b.observed_tables.contains table

/-- Conversion of a captured value vector (broker.rs values_to_vec). -/
def values_to_vec (values : List SqliteValue) : List ColumnValue :=
  values.map SqliteValue.toColumnValue

/-- The extraction loop of extract_primary_key (broker.rs lines 268 to
280): for each primary key column index take the value at that position,
or fail with SchemaMismatch when the index is out of bounds.  The expected
argument is the primary key column count recorded in the error. -/
def extract_pk_values (table : String) (expected : Nat) (values : List SqliteValue) :
    List Nat → Except ObsError (List ColumnValue)
| [] => Except.ok []
| idx :: rest =>
  match values.get? idx with
  | some v => (extract_pk_values table expected values rest).map fun tl => v.toColumnValue :: tl
  | none => Except.error (ObsError.SchemaMismatch table expected values.length)

/-- The value source selected by extract_primary_key: old values for
Delete, new values for Insert and Update (broker.rs lines 258 to 261). -/
def pkSourceValues (event : PreUpdateEvent) : Option (List SqliteValue) :=
  match event.operation with
  | ChangeOperation.Delete => event.old_values
  | ChangeOperation.Insert => event.new_values
  | ChangeOperation.Update => event.new_values

/-- Model of extract_primary_key (broker.rs lines 244 to 282). -/
def extract_primary_key (event : PreUpdateEvent) (table_info : Option TableInfo) :
    Except ObsError (List ColumnValue) :=
  match table_info with
  | none => Except.ok []
  | some info =>
    if info.pk_columns.isEmpty then Except.ok []
    else
      match pkSourceValues event with
      | none => Except.ok []
      | some values => extract_pk_values event.table info.pk_columns.length values info.pk_columns

/-- The rowid published for an event: None for WITHOUT ROWID tables,
otherwise the new rowid for Insert and Update and the old rowid for
Delete (broker.rs lines 208 to 215). -/
def eventRowid (event : PreUpdateEvent) (table_info : Option TableInfo) : Option Int :=
  match table_info with
  | some info =>
    if info.without_rowid then none
    else
      match event.operation with
      | ChangeOperation.Insert => some event.new_rowid
      | ChangeOperation.Delete => some event.old_rowid
      | ChangeOperation.Update => some event.new_rowid
  | none =>
    match event.operation with
    | ChangeOperation.Insert => some event.new_rowid
    | ChangeOperation.Delete => some event.old_rowid
    | ChangeOperation.Update => some event.new_rowid

/-- Model of event_to_change (broker.rs lines 204 to 238). -/
def event_to_change (broker : ObservationBroker) (event : PreUpdateEvent) :
    Except ObsError TableChange :=
  let table_info := broker.get_table_info event.table
  match extract_primary_key event table_info with
  | Except.error e => Except.error e
  | Except.ok primary_key =>
    let values : Option (List ColumnValue) × Option (List ColumnValue) :=
      if broker.capture_values then
        (event.old_values.map values_to_vec, event.new_values.map values_to_vec)
      else (none, none)
    Except.ok ⟨event.table, some event.operation, eventRowid event table_info,
      primary_key, values.1, values.2⟩

/-- Model of on_preupdate (broker.rs lines 142 to 149): push the event
onto the buffer. -/
def on_preupdate (buffer : List PreUpdateEvent) (event : PreUpdateEvent) :
    List PreUpdateEvent :=
  buffer ++ [event]

/-- Model of on_commit (broker.rs lines 155 to 177): take the buffer,
convert each event and send every successful conversion; conversion
errors are logged and produce no send.  Returns the new buffer and the
list of published changes in order. -/
def on_commit (broker : ObservationBroker) (buffer : List PreUpdateEvent) :
    List PreUpdateEvent × List TableChange :=
  ([], buffer.filterMap fun e => (event_to_change broker e).toOption)

/-- Model of on_rollback (broker.rs lines 182 to 193): clear the buffer
and publish nothing. -/
def on_rollback (_buffer : List PreUpdateEvent) :
    List PreUpdateEvent × List TableChange :=
  ([], [])

/-- Model of preupdate_callback (hooks.rs lines 213 to 313): discard the
event when its table is not observed, otherwise build the event with old
values captured for Update and Delete and new values captured for Insert
and Update, and buffer it. -/
def preupdate_callback (broker : ObservationBroker) (buffer : List PreUpdateEvent)
    (table : String) (op : ChangeOperation) (old_rowid new_rowid : Int)
    (old_cols new_cols : List SqliteValue) : List PreUpdateEvent :=
  if broker.is_table_observed table then
    let old_values : Option (List SqliteValue) :=
      match op with
      | ChangeOperation.Update => some old_cols
      | ChangeOperation.Delete => some old_cols
      | ChangeOperation.Insert => none
    let new_values : Option (List SqliteValue) :=
      match op with
      | ChangeOperation.Insert => some new_cols
      | ChangeOperation.Update => some new_cols
      | ChangeOperation.Delete => none
    on_preupdate buffer ⟨table, op, old_rowid, new_rowid, old_values, new_values⟩
  else buffer

/-- One SQLite hook invocation, the unit of the trace semantics. -/
inductive HookEvent where
| pre (table : String) (op : ChangeOperation) (old_rowid new_rowid : Int)
    (old_cols new_cols : List SqliteValue)
| commit
| rollback
deriving DecidableEq

/-- Test for the pre constructor. -/
def HookEvent.isPre : HookEvent → Bool
| HookEvent.pre _ _ _ _ _ _ => true
| HookEvent.commit => false
| HookEvent.rollback => false

/-- Dispatch of one hook invocation to the broker, returning the new
buffer and the changes published by this invocation. -/
def hookStep (broker : ObservationBroker) (buffer : List PreUpdateEvent) :
    HookEvent → List PreUpdateEvent × List TableChange
| HookEvent.pre t op o n oc nc => (preupdate_callback broker buffer t op o n oc nc, [])
| HookEvent.commit => on_commit broker buffer
| HookEvent.rollback => on_rollback buffer

/-- Run a sequence of hook invocations, accumulating the published
changes in order. -/
def runHooks (broker : ObservationBroker) (buffer : List PreUpdateEvent) :
    List HookEvent → List PreUpdateEvent × List TableChange
| [] => (buffer, [])
| ev :: rest =>
  let step := hookStep broker buffer ev
  let next := runHooks broker step.1 rest
  (next.1, step.2 ++ next.2)

/-- One item yielded by the inner BroadcastStream: a change, or a Lagged
error carrying the number of missed messages. -/
inductive InnerItem where
| ok (c : TableChange)
| lagged (n : Nat)
deriving DecidableEq

/-- State of the inner stream after its buffered items are exhausted. -/
inductive InnerEnd where
| closed
| pending
deriving DecidableEq

/-- Result of one poll_next call on TableChangeStream.  The itemErr
constructor exists so that yielding a lag indication is expressible; the
code under verification never produces it. -/
inductive PollOutcome where
| itemOk (c : TableChange)
| itemErr (n : Nat)
| finished
| pending
deriving DecidableEq

/-- Model of TableChangeStream poll_next (stream.rs lines 37 to 63): loop
over the inner items, skipping lagged errors with a warning and skipping
changes excluded by the table filter, until a change passes, the stream
closes, or the inner stream is pending.  Returns the outcome and the
items left unconsumed. -/
def poll_next (filter_tables : Option (List String)) :
    List InnerItem → InnerEnd → PollOutcome × List InnerItem
| [], e =>
  (match e with
   | InnerEnd.closed => PollOutcome.finished
   | InnerEnd.pending => PollOutcome.pending, [])
| InnerItem.ok c :: rest, e =>
  match filter_tables with
  | some tables =>
    if tables.contains c.table then (PollOutcome.itemOk c, rest)
    else poll_next filter_tables rest e
  | none => (PollOutcome.itemOk c, rest)
| InnerItem.lagged _ :: rest, e => poll_next filter_tables rest e

/-- Per statement result of a write, from src/builders.rs. -/
structure WriteQueryResult where
  rows_affected : Nat
  last_insert_id : Int
deriving DecidableEq

/-- Errors of the transaction helpers.  The sql constructor stands for any
SQL layer error carrying its message; TransactionRollbackFailed carries
the message of the failed statement and the message of the failed
ROLLBACK. -/
inductive TkError where
| sql (message : String)
| TransactionRollbackFailed (transaction_error rollback_error : String)
deriving DecidableEq

/-- The statement loop shared by the three transaction helpers: execute
each statement in order, stopping at the first error.  Statement outcomes
are supplied as inputs, each either a result or an error message. -/
def runStatements : List (Except String WriteQueryResult) →
    Except String (List WriteQueryResult)
| [] => Except.ok []
| Except.ok r :: rest => (runStatements rest).map fun tl => r :: tl
| Except.error e :: _ => Except.error e

/-- Model of execute_transaction_with_writer (src/builders.rs lines 299 to
338): BEGIN IMMEDIATE, run the statements, COMMIT on success; on failure
ROLLBACK, and if the rollback also fails return the combined
TransactionRollbackFailed error. -/
def execute_transaction_with_writer (begin_res : Except String Unit)
    (stmts : List (Except String WriteQueryResult))
    (commit_res rollback_res : Except String Unit) :
    Except TkError (List WriteQueryResult) :=
  match begin_res with
  | Except.error e => Except.error (TkError.sql e)
  | Except.ok _ =>
    match runStatements stmts with
    | Except.ok results =>
      match commit_res with
      | Except.ok _ => Except.ok results
      | Except.error e => Except.error (TkError.sql e)
    | Except.error e =>
      match rollback_res with
      | Except.ok _ => Except.error (TkError.sql e)
      | Except.error rollback_err =>
        Except.error (TkError.TransactionRollbackFailed e rollback_err)

/-- Model of execute_transaction_with_attached (src/builders.rs lines 341
to 386): as the writer variant, with detach_all after COMMIT propagating
its error, and detach_all after a successful ROLLBACK only logged. -/
def execute_transaction_with_attached (begin_res : Except String Unit)
    (stmts : List (Except String WriteQueryResult))
    (commit_res rollback_res detach_res : Except String Unit) :
    Except TkError (List WriteQueryResult) :=
  match begin_res with
  | Except.error e => Except.error (TkError.sql e)
  | Except.ok _ =>
    match runStatements stmts with
    | Except.ok results =>
      match commit_res with
      | Except.ok _ =>
        match detach_res with
        | Except.ok _ => Except.ok results
        | Except.error e => Except.error (TkError.sql e)
      | Except.error e => Except.error (TkError.sql e)
    | Except.error e =>
      match rollback_res with
      | Except.ok _ => Except.error (TkError.sql e)
      | Except.error rollback_err =>
        Except.error (TkError.TransactionRollbackFailed e rollback_err)

/-- Model of TransactionExecutionBuilder execute from
crates/sqlx-sqlite-toolkit/src/wrapper.rs lines 498 to 548.  On a
statement error the source runs writer.rollback() followed by the try
operator, so a rollback failure is returned directly as that SQL error
and the original statement error is discarded; the combined
TransactionRollbackFailed error is never built on this path. -/
def TransactionExecutionBuilder_execute (begin_res : Except String Unit)
    (stmts : List (Except String WriteQueryResult))
    (commit_res rollback_res detach_res : Except String Unit) :
    Except TkError (List WriteQueryResult) :=
  match begin_res with
  | Except.error e => Except.error (TkError.sql e)
  | Except.ok _ =>
    match runStatements stmts with
    | Except.ok results =>
      match commit_res with
      | Except.ok _ =>
        match detach_res with
        | Except.ok _ => Except.ok results
        | Except.error e => Except.error (TkError.sql e)
      | Except.error e => Except.error (TkError.sql e)
    | Except.error e =>
      match rollback_res with
      | Except.ok _ => Except.error (TkError.sql e)
      | Except.error rollback_err => Except.error (TkError.sql rollback_err)

theorem listCharLe_total : ∀ as bs : List Char,
    listCharLe as bs = true ∨ listCharLe bs as = true := by
  intro as
  induction as with
  | nil => intro bs; left; rfl
  | cons a as ih =>
    intro bs
    cases bs with
    | nil => right; rfl
    | cons b bs =>
      rcases lt_trichotomy a b with h | h | h
      · left; simp [listCharLe, h]
      · subst h
        rcases ih bs with h2 | h2
        · left; simp [listCharLe, lt_irrefl, h2]
        · right; simp [listCharLe, lt_irrefl, h2]
      · right; simp [listCharLe, h]

theorem listCharLe_trans : ∀ as bs cs : List Char, listCharLe as bs = true →
    listCharLe bs cs = true → listCharLe as cs = true := by
  intro as
  induction as with
  | nil => intro bs cs h1 h2; rfl
  | cons a as ih =>
    intro bs cs h1 h2
    cases bs with
    | nil => simp [listCharLe] at h1
    | cons b bs =>
      cases cs with
      | nil => simp [listCharLe] at h2
      | cons c cs =>
        rcases lt_trichotomy a b with hab | hab | hab
        · rcases lt_trichotomy b c with hbc | hbc | hbc
          · simp [listCharLe, lt_trans hab hbc]
          · subst hbc; simp [listCharLe, hab]
          · exfalso; simp [listCharLe, lt_asymm hbc, hbc] at h2
        · subst hab
          rcases lt_trichotomy a c with hac | hac | hac
          · simp [listCharLe, hac]
          · subst hac
            simp [listCharLe, lt_irrefl] at h1 h2 ⊢
            exact ih bs cs h1 h2
          · exfalso; simp [listCharLe, lt_asymm hac, hac] at h2
        · exfalso; simp [listCharLe, lt_asymm hab, hab] at h1

theorem listCharLe_antisymm : ∀ as bs : List Char, listCharLe as bs = true →
    listCharLe bs as = true → as = bs := by
  intro as
  induction as with
  | nil =>
    intro bs h1 h2
    cases bs with
    | nil => rfl
    | cons b bs => simp [listCharLe] at h2
  | cons a as ih =>
    intro bs h1 h2
    cases bs with
    | nil => simp [listCharLe] at h1
    | cons b bs =>
      rcases lt_trichotomy a b with hab | hab | hab
      · exfalso; simp [listCharLe, lt_asymm hab, hab] at h2
      · subst hab
        simp [listCharLe, lt_irrefl] at h1 h2
        rw [ih bs h1 h2]
      · exfalso; simp [listCharLe, lt_asymm hab, hab] at h1

instance : IsTotal String pathLe := ⟨fun a b => listCharLe_total a.data b.data⟩

instance : IsTrans String pathLe := ⟨fun a b c => listCharLe_trans a.data b.data c.data⟩

instance : IsAntisymm String pathLe :=
  ⟨fun a b h1 h2 => by
    cases a; cases b
    simp only [pathLe] at h1 h2
    exact congrArg String.mk (listCharLe_antisymm _ _ h1 h2)⟩

theorem firstDupAux_eq_none_iff : ∀ (l seen : List String),
    firstDupAux seen l = none ↔ l.Nodup ∧ ∀ x ∈ l, x ∉ seen := by
  intro l
  induction l with
  | nil => intro seen; simp [firstDupAux]
  | cons p rest ih =>
    intro seen
    by_cases hp : p ∈ seen
    · simp [firstDupAux, hp]
    · rw [firstDupAux, if_neg hp, ih (p :: seen)]
      simp only [List.nodup_cons, List.mem_cons, not_or]
      constructor
      · rintro ⟨hnd, hall⟩
        refine ⟨⟨fun hmem => (hall p hmem).1 rfl, hnd⟩, ?_⟩
        intro x hx
        rcases hx with hx | hx
        · subst hx; exact hp
        · exact (hall x hx).2
      · rintro ⟨⟨hpr, hnd⟩, hall⟩
        refine ⟨hnd, ?_⟩
        intro x hx
        refine ⟨fun hxp => ?_, hall x (Or.inr hx)⟩
        subst hxp
        exact hpr hx

/-- C1: for every call of acquire_writer_with_attached that passes
validation, the writer locks of the main database and all ReadWrite specs
are acquired in ascending lexicographic byte order of the database path
strings, covering exactly that set of databases, and the acquisition
order is the same for every permutation of the supplied spec list. -/
theorem writer_locks_sorted_and_order_independent
    (main_path : String) (specs : List AttachedSpec) (r : WriterAcqRes)
    (h : (acquire_writer_with_attached main_path specs).result = Except.ok r) :
    List.Sorted pathLe (acquire_writer_with_attached main_path specs).locks ∧
    List.Perm (acquire_writer_with_attached main_path specs).locks
      (writerLockSet main_path specs) ∧
    ∀ specs2 : List AttachedSpec, List.Perm specs2 specs →
      (acquire_writer_with_attached main_path specs2).locks =
        (acquire_writer_with_attached main_path specs).locks := by
  cases hf : specs.find? (fun sp => !is_valid_schema_name sp.schema_name) with
  | some sp => simp [acquire_writer_with_attached, hf] at h
  | none =>
    cases hd : firstDupAux [] (writerLockSet main_path specs) with
    | some p => simp [acquire_writer_with_attached, hf, hd] at h
    | none =>
      refine ⟨?_, ?_, ?_⟩
      · simp only [acquire_writer_with_attached, hf, hd]
        exact List.sorted_insertionSort pathLe (writerLockSet main_path specs)
      · simp only [acquire_writer_with_attached, hf, hd]
        exact List.perm_insertionSort pathLe (writerLockSet main_path specs)
      · intro specs2 hperm
        have hentries : List.Perm (writerLockSet main_path specs2)
            (writerLockSet main_path specs) :=
          List.Perm.cons main_path ((hperm.filter isReadWrite).map fun sp => sp.database)
        have hf2 : specs2.find? (fun sp => !is_valid_schema_name sp.schema_name) = none := by
          rw [List.find?_eq_none] at hf ⊢
          intro x hx
          exact hf x (hperm.mem_iff.mp hx)
        have hd2 : firstDupAux [] (writerLockSet main_path specs2) = none := by
          rw [firstDupAux_eq_none_iff]
          refine ⟨hentries.nodup_iff.mpr ((firstDupAux_eq_none_iff _ _).mp hd).1, ?_⟩
          intro x _ hx
          cases hx
        simp only [acquire_writer_with_attached, hf, hf2, hd, hd2]
        exact List.eq_of_perm_of_sorted
          (((List.perm_insertionSort pathLe _).trans hentries).trans
            (List.perm_insertionSort pathLe _).symm)
          (List.sorted_insertionSort pathLe _) (List.sorted_insertionSort pathLe _)

/-- Witness for C1 at a concrete input: two ReadWrite specs supplied in
descending path order are locked in ascending order a, m, z. -/
theorem writer_locks_sorted_witness :
    ((acquire_writer_with_attached "m"
        [⟨"z", "sz", AttachedMode.ReadWrite⟩, ⟨"a", "sa", AttachedMode.ReadWrite⟩]).result
      = Except.ok ⟨"m", ["a", "z"]⟩) ∧
    (List.Sorted pathLe (acquire_writer_with_attached "m"
        [⟨"z", "sz", AttachedMode.ReadWrite⟩, ⟨"a", "sa", AttachedMode.ReadWrite⟩]).locks ∧
    List.Perm (acquire_writer_with_attached "m"
        [⟨"z", "sz", AttachedMode.ReadWrite⟩, ⟨"a", "sa", AttachedMode.ReadWrite⟩]).locks
      (writerLockSet "m"
        [⟨"z", "sz", AttachedMode.ReadWrite⟩, ⟨"a", "sa", AttachedMode.ReadWrite⟩]) ∧
    ∀ specs2 : List AttachedSpec,
      List.Perm specs2 [⟨"z", "sz", AttachedMode.ReadWrite⟩, ⟨"a", "sa", AttachedMode.ReadWrite⟩] →
      (acquire_writer_with_attached "m" specs2).locks =
        (acquire_writer_with_attached "m"
          [⟨"z", "sz", AttachedMode.ReadWrite⟩, ⟨"a", "sa", AttachedMode.ReadWrite⟩]).locks) :=
  ⟨by decide, writer_locks_sorted_and_order_independent "m"
    [⟨"z", "sz", AttachedMode.ReadWrite⟩, ⟨"a", "sa", AttachedMode.ReadWrite⟩]
    ⟨"m", ["a", "z"]⟩ (by decide)⟩

/-- C8 counterexample: duplicates involving only ReadOnly specs are not
rejected.  The duplicate check of acquire_writer_with_attached runs over
the write-lock set (the main database plus the ReadWrite specs), so two
ReadOnly specs with the same path, and likewise a ReadOnly spec sharing
the main path, pass validation, the main writer lock is acquired, and no
DuplicateAttachedDatabase error is produced, refuting the claim as
stated. -/
theorem writer_readonly_duplicate_not_rejected :
    (acquire_writer_with_attached "m"
      [⟨"d", "s1", AttachedMode.ReadOnly⟩, ⟨"d", "s2", AttachedMode.ReadOnly⟩]).result =
      Except.ok ⟨"m", []⟩ ∧
    (acquire_writer_with_attached "m"
      [⟨"d", "s1", AttachedMode.ReadOnly⟩, ⟨"d", "s2", AttachedMode.ReadOnly⟩]).locks =
      ["m"] ∧
    (∀ p, (acquire_writer_with_attached "m"
      [⟨"d", "s1", AttachedMode.ReadOnly⟩, ⟨"d", "s2", AttachedMode.ReadOnly⟩]).result ≠
      Except.error (ConnError.DuplicateAttachedDatabase p)) ∧
    (acquire_writer_with_attached "m" [⟨"m", "s0", AttachedMode.ReadOnly⟩]).result =
      Except.ok ⟨"m", []⟩ ∧
    (acquire_writer_with_attached "m" [⟨"m", "s0", AttachedMode.ReadOnly⟩]).locks =
      ["m"] := by
  have hok : (acquire_writer_with_attached "m"
      [⟨"d", "s1", AttachedMode.ReadOnly⟩, ⟨"d", "s2", AttachedMode.ReadOnly⟩]).result =
      Except.ok ⟨"m", []⟩ := by decide
  refine ⟨hok, by decide, ?_, by decide, by decide⟩
  intro p h
  rw [hok] at h
  cases h

/-- C8 (amended): when the set of databases needing write locks, that is
the main database plus every ReadWrite spec, contains a duplicate path and
every schema name is valid (schema validation runs first per the source),
acquire_writer_with_attached fails with DuplicateAttachedDatabase and
acquires no writer lock.  Duplicates among ReadOnly specs are not covered
by this check and are left to the later ATTACH statements. -/
theorem writer_duplicate_rejected_before_locks
    (main_path : String) (specs : List AttachedSpec)
    (hvalid : ∀ sp ∈ specs, is_valid_schema_name sp.schema_name = true)
    (hdup : ¬ (writerLockSet main_path specs).Nodup) :
    (acquire_writer_with_attached main_path specs).locks = [] ∧
    ∃ p, (acquire_writer_with_attached main_path specs).result =
      Except.error (ConnError.DuplicateAttachedDatabase p) := by
  have hf : specs.find? (fun sp => !is_valid_schema_name sp.schema_name) = none := by
    rw [List.find?_eq_none]
    intro x hx
    simp [hvalid x hx]
  cases hd : firstDupAux [] (writerLockSet main_path specs) with
  | none => exact absurd ((firstDupAux_eq_none_iff _ _).mp hd).1 hdup
  | some p =>
    refine ⟨?_, p, ?_⟩
    · simp [acquire_writer_with_attached, hf, hd]
    · simp [acquire_writer_with_attached, hf, hd]

/-- Witness for the amended C8 at a concrete input: attaching the main
database to itself in ReadWrite mode is a duplicate in the write-lock
set. -/
theorem writer_duplicate_rejected_witness :
    (acquire_writer_with_attached "m" [⟨"m", "s1", AttachedMode.ReadWrite⟩]).locks = [] ∧
    ∃ p, (acquire_writer_with_attached "m" [⟨"m", "s1", AttachedMode.ReadWrite⟩]).result =
      Except.error (ConnError.DuplicateAttachedDatabase p) :=
  writer_duplicate_rejected_before_locks "m" [⟨"m", "s1", AttachedMode.ReadWrite⟩]
    (by decide) (by decide)

theorem readerLoop_stops_at_readwrite :
    ∀ (l : List AttachedSpec) (att sch : List String),
    (∀ sp ∈ l, is_valid_schema_name sp.schema_name = true) →
    (∃ sp ∈ l, sp.mode = AttachedMode.ReadWrite) →
    readerLoop l att sch =
      ⟨att ++ (l.takeWhile isReadOnly).map attach_sql,
       sch ++ (l.takeWhile isReadOnly).map (fun sp => sp.schema_name),
       Except.error ConnError.CannotAttachReadWriteToReader⟩ := by
  intro l
  induction l with
  | nil =>
    intro att sch hv hrw
    simp at hrw
  | cons sp rest ih =>
    intro att sch hv hrw
    have hvsp := hv sp (List.mem_cons_self _ _)
    cases hmode : sp.mode with
    | ReadWrite =>
      rw [readerLoop]
      simp [hvsp, isReadWrite, isReadOnly, hmode]
    | ReadOnly =>
      have hrw2 : ∃ s ∈ rest, s.mode = AttachedMode.ReadWrite := by
        rcases hrw with ⟨s, hs, hsm⟩
        cases hs with
        | head => rw [hmode] at hsm; cases hsm
        | tail _ h => exact ⟨s, h, hsm⟩
      rw [readerLoop]
      simp only [hvsp, Bool.not_true, Bool.false_eq_true, if_false, isReadWrite, hmode]
      rw [ih _ _ (fun s hs => hv s (List.mem_cons_of_mem _ hs)) hrw2]
      simp [isReadOnly, hmode, List.append_assoc]

/-- C3 counterexample: with a ReadOnly spec whose path sorts before a
ReadWrite spec, acquire_reader_with_attached does fail with
CannotAttachReadWriteToReader, but an ATTACH statement has already been
executed on the read connection before the error is returned, refuting the
claim that no ATTACH is ever executed. -/
theorem reader_attach_executed_before_error :
    (acquire_reader_with_attached
      [⟨"a", "sa", AttachedMode.ReadOnly⟩, ⟨"b", "sb", AttachedMode.ReadWrite⟩]).result =
      Except.error ConnError.CannotAttachReadWriteToReader ∧
    (acquire_reader_with_attached
      [⟨"a", "sa", AttachedMode.ReadOnly⟩, ⟨"b", "sb", AttachedMode.ReadWrite⟩]).attached =
      [attach_sql ⟨"a", "sa", AttachedMode.ReadOnly⟩] ∧
    (acquire_reader_with_attached
      [⟨"a", "sa", AttachedMode.ReadOnly⟩, ⟨"b", "sb", AttachedMode.ReadWrite⟩]).attached ≠
      [] := by
  refine ⟨by decide, by decide, by decide⟩

/-- C3 (amended): when every schema name is valid, no two specs share a
path and some spec is ReadWrite, acquire_reader_with_attached fails with
CannotAttachReadWriteToReader; the ATTACH statements executed before the
error are exactly those of the ReadOnly specs preceding the first
ReadWrite spec in path-sorted order, so no ATTACH is executed for the
ReadWrite spec or anything after it. -/
theorem reader_readwrite_rejected
    (specs : List AttachedSpec)
    (hvalid : ∀ sp ∈ specs, is_valid_schema_name sp.schema_name = true)
    (hnodup : (specs.map fun sp => sp.database).Nodup)
    (hrw : ∃ sp ∈ specs, sp.mode = AttachedMode.ReadWrite) :
    (acquire_reader_with_attached specs).result =
      Except.error ConnError.CannotAttachReadWriteToReader ∧
    (acquire_reader_with_attached specs).attached =
      ((List.insertionSort specPathLe specs).takeWhile isReadOnly).map attach_sql := by
  have hperm := List.perm_insertionSort specPathLe specs
  have hv2 : ∀ sp ∈ List.insertionSort specPathLe specs,
      is_valid_schema_name sp.schema_name = true :=
    fun sp hs => hvalid sp (hperm.mem_iff.mp hs)
  have hrw2 : ∃ sp ∈ List.insertionSort specPathLe specs,
      sp.mode = AttachedMode.ReadWrite := by
    rcases hrw with ⟨sp, hs, hm⟩
    exact ⟨sp, hperm.mem_iff.mpr hs, hm⟩
  have hd : firstDupAux []
      ((List.insertionSort specPathLe specs).map fun sp => sp.database) = none := by
    rw [firstDupAux_eq_none_iff]
    exact ⟨((hperm.map fun sp => sp.database).nodup_iff).mpr hnodup,
      fun x _ hx => by cases hx⟩
  simp only [acquire_reader_with_attached, hd]
  rw [readerLoop_stops_at_readwrite _ _ _ hv2 hrw2]
  simp

/-- Witness for the amended C3 at a concrete input: a single ReadWrite
spec is rejected with no ATTACH executed. -/
theorem reader_readwrite_rejected_witness :
    (acquire_reader_with_attached [⟨"b", "sb", AttachedMode.ReadWrite⟩]).result =
      Except.error ConnError.CannotAttachReadWriteToReader ∧
    (acquire_reader_with_attached [⟨"b", "sb", AttachedMode.ReadWrite⟩]).attached =
      ((List.insertionSort specPathLe [⟨"b", "sb", AttachedMode.ReadWrite⟩]).takeWhile
        isReadOnly).map attach_sql :=
  reader_readwrite_rejected [⟨"b", "sb", AttachedMode.ReadWrite⟩]
    (by decide) (by decide) (by decide)

theorem runHooks_append (broker : ObservationBroker) (ops1 ops2 : List HookEvent) :
    ∀ buffer : List PreUpdateEvent,
    runHooks broker buffer (ops1 ++ ops2) =
      ((runHooks broker (runHooks broker buffer ops1).1 ops2).1,
       (runHooks broker buffer ops1).2 ++
         (runHooks broker (runHooks broker buffer ops1).1 ops2).2) := by
  induction ops1 with
  | nil => intro buffer; simp [runHooks]
  | cons ev rest ih => intro buffer; simp [runHooks, ih, List.append_assoc]

/-- C4: for every transaction that ends in rollback, nothing is published:
running any sequence of preupdate hook invocations followed by the
rollback hook publishes zero changes and leaves the buffer empty, and
on_rollback itself clears the buffer and sends nothing. -/
theorem rollback_publishes_nothing (broker : ObservationBroker)
    (ops : List HookEvent) (buffer : List PreUpdateEvent)
    (h : ∀ ev ∈ ops, ev.isPre = true) :
    (runHooks broker buffer (ops ++ [HookEvent.rollback])).2 = [] ∧
    (runHooks broker buffer (ops ++ [HookEvent.rollback])).1 = [] ∧
    on_rollback buffer = ([], []) := by
  refine ⟨?_, ?_, rfl⟩ <;>
  · induction ops generalizing buffer with
    | nil => simp [runHooks, hookStep, on_rollback]
    | cons ev rest ih =>
      have hev := h ev (List.mem_cons_self _ _)
      cases ev with
      | pre t op o n oc nc =>
        have h2 : ∀ e ∈ rest, e.isPre = true := fun e he => h e (List.mem_cons_of_mem _ he)
        simp only [List.cons_append, runHooks, hookStep]
        simp [ih _ h2]
      | commit => simp [HookEvent.isPre] at hev
      | rollback => simp [HookEvent.isPre] at hev

/-- Witness for C4 at a concrete input: one observed insert followed by
rollback publishes nothing. -/
theorem rollback_publishes_nothing_witness :
    (runHooks ⟨["t"], [], true⟩ []
      ([HookEvent.pre "t" ChangeOperation.Insert 0 1 [] [SqliteValue.integer 5]] ++
        [HookEvent.rollback])).2 = [] ∧
    (runHooks ⟨["t"], [], true⟩ []
      ([HookEvent.pre "t" ChangeOperation.Insert 0 1 [] [SqliteValue.integer 5]] ++
        [HookEvent.rollback])).1 = [] ∧
    on_rollback [] = ([], []) :=
  rollback_publishes_nothing ⟨["t"], [], true⟩
    [HookEvent.pre "t" ChangeOperation.Insert 0 1 [] [SqliteValue.integer 5]] []
    (by decide)

/-- C6: a preupdate hook invocation whose table is not observed leaves the
broker in exactly the state it would be in had the invocation never
happened: it is not buffered and contributes to no later commit. -/
theorem unobserved_event_discarded (broker : ObservationBroker)
    (t : String) (op : ChangeOperation) (o n : Int) (oc nc : List SqliteValue)
    (ops1 ops2 : List HookEvent) (buffer : List PreUpdateEvent)
    (h : broker.is_table_observed t = false) :
    runHooks broker buffer (ops1 ++ HookEvent.pre t op o n oc nc :: ops2) =
      runHooks broker buffer (ops1 ++ ops2) := by
  induction ops1 generalizing buffer with
  | nil => simp [runHooks, hookStep, preupdate_callback, h]
  | cons ev rest ih => simp [runHooks, ih]

/-- Witness for C6 at a concrete input: an insert on an unobserved table
between an observed insert and a commit changes nothing. -/
theorem unobserved_event_discarded_witness :
    runHooks ⟨["t"], [], true⟩ []
      ([HookEvent.pre "t" ChangeOperation.Insert 0 1 [] [SqliteValue.integer 5]] ++
        HookEvent.pre "u" ChangeOperation.Insert 0 2 [] [SqliteValue.integer 6] ::
        [HookEvent.commit]) =
    runHooks ⟨["t"], [], true⟩ []
      ([HookEvent.pre "t" ChangeOperation.Insert 0 1 [] [SqliteValue.integer 5]] ++
        [HookEvent.commit]) :=
  unobserved_event_discarded ⟨["t"], [], true⟩ "u" ChangeOperation.Insert 0 2
    [] [SqliteValue.integer 6]
    [HookEvent.pre "t" ChangeOperation.Insert 0 1 [] [SqliteValue.integer 5]]
    [HookEvent.commit] [] (by decide)

theorem extract_pk_values_in_bounds (table : String) (expected : Nat)
    (values : List SqliteValue) :
    ∀ pk : List Nat, (∀ i ∈ pk, i < values.length) →
    extract_pk_values table expected values pk =
      Except.ok (pk.map fun i => (values[i]?.getD SqliteValue.null).toColumnValue) := by
  intro pk
  induction pk with
  | nil => intro hb; rfl
  | cons i rest ih =>
    intro hb
    have hi : i < values.length := hb i (List.mem_cons_self _ _)
    cases hv : values[i]? with
    | none =>
      have := List.getElem?_eq_none_iff.mp hv
      omega
    | some v =>
      simp [extract_pk_values, hv, Except.map, ih (fun j hj => hb j (List.mem_cons_of_mem _ hj))]

theorem extract_pk_values_out_of_bounds (table : String) (expected : Nat)
    (values : List SqliteValue) :
    ∀ pk : List Nat, (∃ i ∈ pk, values.length ≤ i) →
    extract_pk_values table expected values pk =
      Except.error (ObsError.SchemaMismatch table expected values.length) := by
  intro pk
  induction pk with
  | nil => intro h; simp at h
  | cons i rest ih =>
    intro h
    cases hv : values[i]? with
    | none => simp [extract_pk_values, hv]
    | some v =>
      have hi : i < values.length := by
        by_contra hc
        push_neg at hc
        simp [List.getElem?_eq_none hc] at hv
      have hrest : ∃ j ∈ rest, values.length ≤ j := by
        rcases h with ⟨j, hj, hlen⟩
        cases hj with
        | head => exact absurd hlen (not_le.mpr hi)
        | tail _ hj2 => exact ⟨j, hj2, hlen⟩
      simp [extract_pk_values, hv, Except.map, ih hrest]

theorem event_to_change_ok (broker : ObservationBroker) (event : PreUpdateEvent)
    (pk : List ColumnValue)
    (h : extract_primary_key event (broker.get_table_info event.table) = Except.ok pk) :
    event_to_change broker event = Except.ok
      ⟨event.table, some event.operation,
       eventRowid event (broker.get_table_info event.table), pk,
       if broker.capture_values then event.old_values.map values_to_vec else none,
       if broker.capture_values then event.new_values.map values_to_vec else none⟩ := by
  simp only [event_to_change, h]
  cases hcv : broker.capture_values <;> simp [hcv]

/-- C5: conversion of a buffered preupdate event into a published change.
When no table info is cached for the table of the event the primary key is
empty; when table info is cached, the primary key is the list of values at
the pk column indices taken from the old values for Delete and from the
new values for Insert and Update; when a pk index is out of bounds the
event is suppressed on commit with a SchemaMismatch error and no panic;
the rowid is None exactly when the cached table info has without_rowid,
and otherwise equals the new rowid for Insert and Update and the old rowid
for Delete. -/
theorem event_conversion_spec (broker : ObservationBroker) (event : PreUpdateEvent) :
    (broker.get_table_info event.table = none →
      ∃ c, event_to_change broker event = Except.ok c ∧ c.primary_key = []) ∧
    (∀ info values, broker.get_table_info event.table = some info →
      pkSourceValues event = some values →
      (∀ i ∈ info.pk_columns, i < values.length) →
      ∃ c, event_to_change broker event = Except.ok c ∧
        c.primary_key = info.pk_columns.map
          fun i => (values[i]?.getD SqliteValue.null).toColumnValue) ∧
    (∀ info values, broker.get_table_info event.table = some info →
      pkSourceValues event = some values →
      info.pk_columns ≠ [] →
      (∃ i ∈ info.pk_columns, values.length ≤ i) →
      event_to_change broker event =
        Except.error
          (ObsError.SchemaMismatch event.table info.pk_columns.length values.length) ∧
      ∀ buf1 buf2 : List PreUpdateEvent,
        (on_commit broker (buf1 ++ event :: buf2)).2 =
          (on_commit broker buf1).2 ++ (on_commit broker buf2).2) ∧
    (∀ c, event_to_change broker event = Except.ok c →
      ((c.rowid = none ↔ ∃ info, broker.get_table_info event.table = some info ∧
          info.without_rowid = true) ∧
       (c.rowid ≠ none →
          c.rowid = some (match event.operation with
            | ChangeOperation.Delete => event.old_rowid
            | ChangeOperation.Insert => event.new_rowid
            | ChangeOperation.Update => event.new_rowid)))) := by
  refine ⟨?_, ?_, ?_, ?_⟩
  · intro hnone
    have h1 : extract_primary_key event (broker.get_table_info event.table) =
        Except.ok [] := by
      rw [hnone]
      rfl
    exact ⟨_, event_to_change_ok broker event [] h1, rfl⟩
  · intro info values hinfo hsrc hb
    by_cases hemp : info.pk_columns.isEmpty
    · have h1 : extract_primary_key event (broker.get_table_info event.table) =
          Except.ok [] := by
        rw [hinfo]
        simp [extract_primary_key, hemp]
      refine ⟨_, event_to_change_ok broker event [] h1, ?_⟩
      simp [List.isEmpty_iff.mp hemp]
    · have h1 : extract_primary_key event (broker.get_table_info event.table) =
          Except.ok (info.pk_columns.map
            fun i => (values[i]?.getD SqliteValue.null).toColumnValue) := by
        rw [hinfo]
        simp only [extract_primary_key, hemp, Bool.false_eq_true, if_false, hsrc,
          extract_pk_values_in_bounds _ _ _ _ hb]
      exact ⟨_, event_to_change_ok broker event _ h1, rfl⟩
  · intro info values hinfo hsrc hne hoob
    have herr : event_to_change broker event =
        Except.error
          (ObsError.SchemaMismatch event.table info.pk_columns.length values.length) := by
      have hemp : info.pk_columns.isEmpty = false := by
        cases hpk : info.pk_columns with
        | nil => exact absurd hpk hne
        | cons a l => simp [hpk]
      simp only [event_to_change, hinfo, extract_primary_key, hemp, Bool.false_eq_true,
        if_false, hsrc, extract_pk_values_out_of_bounds _ _ _ _ hoob]
    refine ⟨herr, ?_⟩
    intro buf1 buf2
    simp [on_commit, List.filterMap_append, List.filterMap_cons, herr, Except.toOption]
  · intro c hc
    have hr : c.rowid = eventRowid event (broker.get_table_info event.table) := by
      revert hc
      simp only [event_to_change]
      cases extract_primary_key event (broker.get_table_info event.table) with
      | error e => intro hc; cases hc
      | ok pk =>
        intro hc
        rw [Except.ok.injEq] at hc
        rw [← hc]
    constructor
    · rw [hr]
      cases hinfo : broker.get_table_info event.table with
      | none =>
        simp only [eventRowid]
        cases event.operation <;> simp
      | some info =>
        by_cases hw : info.without_rowid
        · simp [eventRowid, hw]
        · simp only [eventRowid, hw, Bool.false_eq_true, if_false]
          cases event.operation <;> simp [hw]
    · intro hne
      rw [hr] at hne ⊢
      cases hinfo : broker.get_table_info event.table with
      | none =>
        cases hop : event.operation <;> simp [eventRowid, hop]
      | some info =>
        by_cases hw : info.without_rowid
        · rw [hinfo] at hne
          simp [eventRowid, hw] at hne
        · cases hop : event.operation <;> simp [eventRowid, hw, hop]

/-- Witness for C5 at a concrete input: a single-column primary key is
extracted from the new values of an insert. -/
theorem event_conversion_spec_witness :
    (ObservationBroker.get_table_info ⟨["t"], [("t", ⟨[0], false⟩)], true⟩ "t" =
      some ⟨[0], false⟩) ∧
    (pkSourceValues ⟨"t", ChangeOperation.Insert, 0, 7, none, some [SqliteValue.integer 42]⟩ =
      some [SqliteValue.integer 42]) ∧
    (∀ i ∈ ([0] : List Nat), i < ([SqliteValue.integer 42] : List SqliteValue).length) ∧
    ∃ c, event_to_change ⟨["t"], [("t", ⟨[0], false⟩)], true⟩
        ⟨"t", ChangeOperation.Insert, 0, 7, none, some [SqliteValue.integer 42]⟩ =
        Except.ok c ∧
      c.primary_key = ([0] : List Nat).map
        fun i => ((([SqliteValue.integer 42] : List SqliteValue)[i]?).getD
          SqliteValue.null).toColumnValue :=
  ⟨by decide, by decide, by decide,
    (event_conversion_spec ⟨["t"], [("t", ⟨[0], false⟩)], true⟩
      ⟨"t", ChangeOperation.Insert, 0, 7, none, some [SqliteValue.integer 42]⟩).2.1
      ⟨[0], false⟩ [SqliteValue.integer 42] (by decide) (by decide) (by decide)⟩

/-- C10: when capture_values is false every successfully converted change
has no old values and no new values, while its primary key is still the
one extracted from the captured column values; flipping capture_values to
true yields a change with the same primary key. -/
theorem capture_disabled_keeps_primary_key
    (broker : ObservationBroker) (event : PreUpdateEvent) (c : TableChange)
    (hcap : broker.capture_values = false)
    (h : event_to_change broker event = Except.ok c) :
    c.old_values = none ∧ c.new_values = none ∧
    extract_primary_key event (broker.get_table_info event.table) =
      Except.ok c.primary_key ∧
    ∀ c2, event_to_change ⟨broker.observed_tables, broker.table_info, true⟩ event =
        Except.ok c2 →
      c2.primary_key = c.primary_key := by
  cases hx : extract_primary_key event (broker.get_table_info event.table) with
  | error e => exact absurd h (by simp [event_to_change, hx])
  | ok pk =>
    have h2 := event_to_change_ok broker event pk hx
    rw [h] at h2
    injection h2 with hcX
    subst hcX
    refine ⟨by simp [hcap], by simp [hcap], rfl, ?_⟩
    intro c2 h4
    have h5 := event_to_change_ok ⟨broker.observed_tables, broker.table_info, true⟩
      event pk hx
    rw [h4] at h5
    injection h5 with h6
    rw [h6]

/-- Witness for C10 at a concrete input: with capture_values false the
published change still carries the primary key Integer 42. -/
theorem capture_disabled_keeps_primary_key_witness :
    (⟨"t", some ChangeOperation.Insert, some 7, [ColumnValue.integer 42], none, none⟩ :
      TableChange).old_values = none ∧
    (⟨"t", some ChangeOperation.Insert, some 7, [ColumnValue.integer 42], none, none⟩ :
      TableChange).new_values = none ∧
    extract_primary_key
      ⟨"t", ChangeOperation.Insert, 0, 7, none, some [SqliteValue.integer 42]⟩
      (ObservationBroker.get_table_info ⟨["t"], [("t", ⟨[0], false⟩)], false⟩ "t") =
      Except.ok (⟨"t", some ChangeOperation.Insert, some 7, [ColumnValue.integer 42],
        none, none⟩ : TableChange).primary_key ∧
    ∀ c2, event_to_change
        ⟨(⟨["t"], [("t", ⟨[0], false⟩)], false⟩ : ObservationBroker).observed_tables,
         (⟨["t"], [("t", ⟨[0], false⟩)], false⟩ : ObservationBroker).table_info, true⟩
        ⟨"t", ChangeOperation.Insert, 0, 7, none, some [SqliteValue.integer 42]⟩ =
        Except.ok c2 →
      c2.primary_key = (⟨"t", some ChangeOperation.Insert, some 7,
        [ColumnValue.integer 42], none, none⟩ : TableChange).primary_key :=
  capture_disabled_keeps_primary_key ⟨["t"], [("t", ⟨[0], false⟩)], false⟩
    ⟨"t", ChangeOperation.Insert, 0, 7, none, some [SqliteValue.integer 42]⟩
    ⟨"t", some ChangeOperation.Insert, some 7, [ColumnValue.integer 42], none, none⟩
    (by decide) (by decide)

/-- C9: poll_next never yields a lag indication: its outcome is never
itemErr, and any run of lagged items at the front of the inner stream is
skipped silently, leaving the result exactly what it would be without
them. -/
theorem stream_never_yields_lag
    (filter_tables : Option (List String)) (items : List InnerItem) (e : InnerEnd)
    (lags : List Nat) :
    (∀ n, (poll_next filter_tables items e).1 ≠ PollOutcome.itemErr n) ∧
    poll_next filter_tables (lags.map InnerItem.lagged ++ items) e =
      poll_next filter_tables items e := by
  constructor
  · intro n
    induction items with
    | nil => cases e <;> simp [poll_next]
    | cons it rest ih =>
      cases it with
      | ok c =>
        cases hf : filter_tables with
        | none => simp [poll_next]
        | some tables =>
          rw [hf] at ih
          by_cases hc : c.table ∈ tables
          · simp [poll_next, hc]
          · simpa [poll_next, hc] using ih
      | lagged m => simpa [poll_next] using ih
  · induction lags with
    | nil => rfl
    | cons m rest ih => simpa [poll_next] using ih

/-- C2: with a failing statement followed by a failing ROLLBACK, the two
transaction helpers of the main crate return the combined
TransactionRollbackFailed error carrying both messages, but the toolkit
TransactionExecutionBuilder execute path returns the rollback error alone
and discards the statement error, so it never produces the combined
error. -/
theorem rollback_failure_error_paths :
    execute_transaction_with_writer (Except.ok ()) [Except.error "stmt"] (Except.ok ())
      (Except.error "rb") =
      Except.error (TkError.TransactionRollbackFailed "stmt" "rb") ∧
    execute_transaction_with_attached (Except.ok ()) [Except.error "stmt"] (Except.ok ())
      (Except.error "rb") (Except.ok ()) =
      Except.error (TkError.TransactionRollbackFailed "stmt" "rb") ∧
    TransactionExecutionBuilder_execute (Except.ok ()) [Except.error "stmt"] (Except.ok ())
      (Except.error "rb") (Except.ok ()) =
      Except.error (TkError.sql "rb") ∧
    TransactionExecutionBuilder_execute (Except.ok ()) [Except.error "stmt"] (Except.ok ())
      (Except.error "rb") (Except.ok ()) ≠
      Except.error (TkError.TransactionRollbackFailed "stmt" "rb") := by
  refine ⟨rfl, rfl, rfl, ?_⟩
  intro h
  cases h

/-- C7 counterexample: a boolean is not bound as INTEGER 1 or 0; it falls
through to the generic JsonValue bind, which sqlx encodes as the JSON
text serialization rather than an integer. -/
theorem bind_value_bool_not_integer :
    bind_value (JValue.bool true) = BoundValue.jsonValue (JValue.bool true) ∧
    ∀ v : Int, bind_value (JValue.bool true) ≠ BoundValue.integer v :=
  ⟨rfl, fun v h => by cases h⟩

/-- C7 (amended): bind_value binds null as SQL NULL, strings as TEXT,
signed integers fitting i64 as INTEGER, unsigned integers at most i64 max
as INTEGER, unsigned integers above i64 max as REAL through a lossy cast,
and float numbers as REAL; booleans are not bound as INTEGER but fall
through to the generic JsonValue bind. -/
theorem bind_value_rules (s : String) (i : Int) (u : Nat) (f : F64) (b : Bool)
    (_hi : i64Min ≤ i ∧ i ≤ (i64Max : Int)) :
    bind_value JValue.null = BoundValue.null ∧
    bind_value (JValue.str s) = BoundValue.text s ∧
    bind_value (JValue.num (JNumber.ofI64 i)) = BoundValue.integer i ∧
    (u ≤ i64Max →
      bind_value (JValue.num (JNumber.ofU64 u)) = BoundValue.integer (Int.ofNat u)) ∧
    (i64Max < u →
      bind_value (JValue.num (JNumber.ofU64 u)) = BoundValue.real (F64.ofNatCast u)) ∧
    bind_value (JValue.num (JNumber.ofF64 f)) = BoundValue.real f ∧
    bind_value (JValue.bool b) = BoundValue.jsonValue (JValue.bool b) := by
  refine ⟨rfl, rfl, rfl, ?_, ?_, rfl, ?_⟩
  · intro hu
    simp [bind_value, JValue.is_null, JValue.is_string, JValue.as_number,
      JNumber.as_i64, hu]
  · intro hu
    simp [bind_value, JValue.is_null, JValue.is_string, JValue.as_number,
      JNumber.as_i64, JNumber.as_u64, not_le.mpr hu]
  · cases b <;> rfl

/-- Witness for the amended C7 at concrete inputs. -/
theorem bind_value_rules_witness :
    (i64Min ≤ (5 : Int) ∧ (5 : Int) ≤ (i64Max : Int)) ∧
    (bind_value JValue.null = BoundValue.null ∧
    bind_value (JValue.str "a") = BoundValue.text "a" ∧
    bind_value (JValue.num (JNumber.ofI64 5)) = BoundValue.integer 5 ∧
    ((3 : Nat) ≤ i64Max →
      bind_value (JValue.num (JNumber.ofU64 3)) = BoundValue.integer (Int.ofNat 3)) ∧
    (i64Max < (3 : Nat) →
      bind_value (JValue.num (JNumber.ofU64 3)) = BoundValue.real (F64.ofNatCast 3)) ∧
    bind_value (JValue.num (JNumber.ofF64 (F64.ofRaw 0))) =
      BoundValue.real (F64.ofRaw 0) ∧
    bind_value (JValue.bool true) = BoundValue.jsonValue (JValue.bool true)) :=
  ⟨by decide, bind_value_rules "a" 5 3 (F64.ofRaw 0) true (by decide)⟩
